import Mathlib

/-!
Verification development for the que-pasa Tezos contract indexer.

This file gives a shallow embedding, in Lean 4, of the parts of the Rust
source that the checked properties are about:

* `src/storage_structure/relational.rs` — the `ASTBuilder` that derives a
  `RelationalAST` (tables/columns) from a Michelson-like storage type tree;
* `src/highlevel.rs` — `Executor::ensure_level_hash`, the reorg handling in
  `exec_for_block` / `exec_continuous`, and `exec_levels`;
* `src/config.rs` — `init_config`;
* `src/sql/postgresql_generator.rs` — `PostgresqlGenerator::create_view_definition`.

Rust `HashMap`s are modelled as association lists (insert = cons, lookup =
first match, which has exactly the replace-on-insert observable behaviour of
`HashMap::insert`/`contains_key`/indexing).  Rust `u32` arithmetic on block
levels is modelled on `Nat` with explicit wrap-around modulo `2^32`
(release-profile wrapping semantics).  Fallible Rust functions returning
`anyhow::Result` are modelled with `Except String` (resp. a dedicated error
structure where the error payload matters).
-/

set_option linter.unreachableTactic false
set_option linter.unusedTactic false
set_option linter.unnecessarySeqFocus false

namespace QP

/-! ## Typing (`src/storage_structure/typing.rs`, shapes as used by `relational.rs`)

The `typing.rs` source is not part of the extract, but the constructors of
`SimpleExprTy` / `ComplexExprTy` / `ExprTy` / `Ele` are fully determined by
their uses in `relational.rs` (`get_column_name`, the `build_*` matches and
the unit tests at the bottom of that file): an `Ele` is a storage-type tree
node carrying an `expr_type` and an optional annotation `name`. -/

inductive SimpleExprTy where
  | address | bool | bytes | int | nat | mutez | string
  | keyHash | signature | contract | timestamp | unit | stop
deriving DecidableEq, Repr

mutual
inductive ExprTy where
  | complexExprTy (e : ComplexExprTy)
  | simpleExprTy (e : SimpleExprTy)
deriving DecidableEq, Repr

inductive ComplexExprTy where
  | pair (left_type right_type : Ele)
  | list (elems_unique : Bool) (elems_type : Ele)
  | bigMap (key_type value_type : Ele)
  | map (key_type value_type : Ele)
  | option (expr_type : Ele)
  | orEnumeration (left_type right_type : Ele)
deriving DecidableEq, Repr

inductive Ele where
  | mk (expr_type : ExprTy) (name : Option String)
deriving DecidableEq, Repr
end

def Ele.expr_type : Ele → ExprTy
  | .mk t _ => t

def Ele.name : Ele → Option String
  | .mk _ n => n

/-- `fn get_column_name(expr: &ExprTy) -> &str` (relational.rs:12). -/
def get_column_name : ExprTy → String
  | .complexExprTy _ => ""
  | .simpleExprTy e =>
    match e with
    | .address => "address"
    | .bool => "bool"
    | .bytes => "bytes"
    | .int => "int"
    | .nat => "nat"
    | .mutez => "mutez"
    | .string => "string"
    | .keyHash => "keyhash"
    | .signature => "signature"
    | .contract => "contract"
    | .timestamp => "timestamp"
    | .unit => "unit"
    | .stop => "stop"

/-- `fn ele_with_annot(ele: &Ele, annot: Option<String>) -> Ele` (relational.rs:467). -/
def ele_with_annot (ele : Ele) (annot : Option String) : Ele :=
  match ele.name with
  | some _ => ele
  | none => .mk ele.expr_type annot

/-- `fn ele_set_annot(ele: &Ele, annot: Option<String>) -> Ele` (relational.rs:478). -/
def ele_set_annot (ele : Ele) (annot : Option String) : Ele :=
  .mk ele.expr_type annot

/-! ## Context (`relational.rs:33-87`)

The Rust field `prefix` is a Lean keyword, so it is named `pfx` here. -/

structure Context where
  table_name : String
  pfx : String
deriving DecidableEq, Repr

namespace Context

/-- `Context::init` (relational.rs:40). -/
def init : Context := { table_name := "storage", pfx := "" }

/-- `Context::apply_prefix` (relational.rs:47): joins the running pair/option
prefix onto a local name, and dot-escapes the reserved view column names. -/
def apply_pfx (c : Context) (name : String) : String :=
  let res := c.pfx ++ (if c.pfx.isEmpty then "" else "_") ++ name
  if res == "level" || res == "level_timestamp" then "." ++ res else res

/-- `Context::next` (relational.rs:61). -/
def next (c : Context) : Context := c

/-- `Context::next_with_prefix` (relational.rs:65): note that a `Some` value
*replaces* the current prefix. -/
def next_with_pfx (c : Context) (p : Option String) : Context :=
  match p with
  | some pre => { c.next with pfx := pre }
  | none => c.next

/-- `Context::start_table` (relational.rs:73): child table names are
parent-dotted. -/
def start_table (c : Context) (name : String) : Context :=
  { c.next with table_name := c.table_name ++ "." ++ name }

/-- `Context::table_leaf_name` (relational.rs:79): the segment after the last
`'.'` of the table name (the whole name if there is no dot). -/
def table_leaf_name (c : Context) : String :=
  if c.table_name.data.contains '.' then
    String.mk (((c.table_name.data.reverse.takeWhile (· ≠ '.'))).reverse)
  else
    c.table_name

end Context

/-! ## RelationalAST (`relational.rs:89-143`) -/

structure RelationalEntry where
  table_name : String
  column_name : String
  column_type : ExprTy
  value : Option String
  is_index : Bool
deriving DecidableEq, Repr

inductive RelationalAST where
  | option (elem_ast : RelationalAST)
  | pair (left_ast right_ast : RelationalAST)
  | orEnumeration (or_unfold : Option RelationalEntry)
      (left_table : Option String) (left_ast : RelationalAST)
      (right_table : Option String) (right_ast : RelationalAST)
  | map (table : String) (key_ast value_ast : RelationalAST)
  | bigMap (table : String) (key_ast value_ast : RelationalAST)
  | list (table : String) (elems_unique : Bool) (elems_ast : RelationalAST)
  | leaf (rel_entry : RelationalEntry)
deriving DecidableEq, Repr

/-! ## ASTBuilder state (`relational.rs:145-156`)

`table_names: HashMap<String, u32>` and
`column_names: HashMap<(String, String), u32>`, modelled as association
lists with insert-at-front (lookup takes the first match, matching the
`HashMap` replace-on-insert semantics). -/

def alLookup {α β : Type} [BEq α] : List (α × β) → α → Option β
  | [], _ => none
  | (k, v) :: rest, key => if k == key then some v else alLookup rest key

def alContains {α β : Type} [BEq α] (l : List (α × β)) (key : α) : Bool :=
  (alLookup l key).isSome

def alInsert {α β : Type} (l : List (α × β)) (key : α) (v : β) : List (α × β) :=
  (key, v) :: l

structure ASTBuilder where
  table_names : List (String × Nat)
  column_names : List ((String × String) × Nat)

namespace ASTBuilder

/-- `ASTBuilder::new` (relational.rs:151). -/
def new : ASTBuilder := { table_names := [], column_names := [] }

/-- The `while` loop inside `ASTBuilder::start_table` / `column_name`:
starting from candidate suffix `c`, bump `c` while `name_c` is already a
registered key.  The Rust loop terminates because the map is finite; here we
bound the search by the number of registered entries plus one, which is
always enough since each iteration needs a distinct colliding key. -/
def bumpSuffix (contains : String → Bool) (name : String) : Nat → Nat → Nat
  | 0, c => c
  | fuel + 1, c =>
    if contains (name ++ "_" ++ toString c) then
      bumpSuffix contains name fuel (c + 1)
    else
      c

/-- `ASTBuilder::start_table` (relational.rs:158).  Returns the updated
builder along with the new context.  Note the source registers the *base*
`name` (with counter value `c`) in `table_names`, not the emitted
`name_c`. -/
def start_table (b : ASTBuilder) (ctx : Context) (ele : Ele) :
    Context × ASTBuilder :=
  let name := match ele.name with
    | some s => s
    | none => "noname"
  let c : Nat :=
    if alContains b.table_names name then
      bumpSuffix (fun s => alContains b.table_names s) name
        (b.table_names.length + 1) ((alLookup b.table_names name).getD 0 + 1)
    else 0
  let b' := { b with table_names := alInsert b.table_names name c }
  let name := if c == 0 then name else name ++ "_" ++ toString c
  (ctx.start_table name, b')

/-- `ASTBuilder::column_name` (relational.rs:184).  Same base-name
bookkeeping as `start_table`, keyed by `(table, name)`. -/
def column_name (b : ASTBuilder) (ctx : Context) (ele : Ele)
    (is_index : Bool) : String × ASTBuilder :=
  let name := match ele.name with
    | some x => x
    | none => get_column_name ele.expr_type
  let name := ctx.apply_pfx name
  let name := if is_index then "idx_" ++ name else name
  let table := ctx.table_name
  let c : Nat :=
    if alContains b.column_names (table, name) then
      bumpSuffix (fun s => alContains b.column_names (table, s)) name
        (b.column_names.length + 1)
        ((alLookup b.column_names (table, name)).getD 0 + 1)
    else 0
  let b' := { b with column_names := alInsert b.column_names (table, name) c }
  (if c == 0 then name else name ++ "_" ++ toString c, b')

end ASTBuilder

/-! ## Sizes for the termination measure of the mutual `build_*` functions.

Annotations are ignored, so `ele_set_annot`/`ele_with_annot` preserve size.
Every complex node weighs `3 +` its children, giving enough slack for the
cross-calls of `build_relational_ast` / `build_enumeration_or` /
`build_enumeration_or_internal` / `build_index` at equal size. -/

mutual
def ExprTy.sz : ExprTy → Nat
  | .complexExprTy c => c.sz
  | .simpleExprTy _ => 1

def ComplexExprTy.sz : ComplexExprTy → Nat
  | .pair l r => 3 + l.sz + r.sz
  | .list _ e => 3 + e.sz
  | .bigMap k v => 3 + k.sz + v.sz
  | .map k v => 3 + k.sz + v.sz
  | .option e => 3 + e.sz
  | .orEnumeration l r => 3 + l.sz + r.sz

def Ele.sz : Ele → Nat
  | .mk t _ => t.sz
end

def Ele.isOr : Ele → Bool
  | .mk (.complexExprTy (.orEnumeration _ _)) _ => true
  | _ => false

theorem ExprTy.sz_pos (t : ExprTy) : 1 ≤ t.sz := by
  cases t with
  | simpleExprTy e => simp [ExprTy.sz]
  | complexExprTy c =>
    cases c <;> simp [ExprTy.sz, ComplexExprTy.sz] <;> omega

theorem Ele.one_le_sz (e : Ele) : 1 ≤ e.sz := by
  cases e with
  | mk t n => simpa [Ele.sz] using t.sz_pos

@[simp] theorem Ele.sz_set_annot (e : Ele) (a : Option String) :
    (ele_set_annot e a).sz = e.sz := by
  cases e
  rfl

@[simp] theorem Ele.sz_with_annot (e : Ele) (a : Option String) :
    (ele_with_annot e a).sz = e.sz := by
  cases e with
  | mk t n => cases n <;> rfl

/-! ## The builder traversal (`relational.rs:222-464`)

`build_relational_ast`, `build_enumeration_or`,
`build_enumeration_or_internal` and `build_index`, with the builder state
threaded explicitly.  Errors are the `anyhow!` messages. -/

set_option maxHeartbeats 2000000 in
set_option linter.unusedTactic false in
set_option linter.unreachableTactic false in
mutual

/-- `ASTBuilder::build_relational_ast` (relational.rs:222). -/
def build_relational_ast (b : ASTBuilder) (ctx : Context) (ele : Ele) :
    Except String (RelationalAST × ASTBuilder) :=
  match ele with
  | .mk (.complexExprTy (.pair left_type right_type)) nm =>
    let ctx := ctx.next_with_pfx nm
    do
      let (left, b) ← build_relational_ast b ctx left_type
      let (right, b) ← build_relational_ast b ctx right_type
      return (.pair left right, b)
  | e@(.mk (.complexExprTy (.list elems_unique elems_type)) _) =>
    let (ctx, b) := b.start_table ctx e
    do
      let (elems_ast, b) ←
        if elems_unique then build_index b ctx elems_type
        else build_relational_ast b ctx elems_type
      return (.list ctx.table_name elems_unique elems_ast, b)
  | e@(.mk (.complexExprTy (.bigMap key_type value_type)) _) =>
    let (ctx, b) := b.start_table ctx e
    do
      let (key_ast, b) ← build_index b ctx key_type
      let (value_ast, b) ← build_relational_ast b ctx value_type
      return (.bigMap ctx.table_name key_ast value_ast, b)
  | e@(.mk (.complexExprTy (.map key_type value_type)) _) =>
    let (ctx, b) := b.start_table ctx e
    do
      let (key_ast, b) ← build_index b ctx key_type
      let (value_ast, b) ← build_relational_ast b ctx value_type
      return (.map ctx.table_name key_ast value_ast, b)
  | .mk (.complexExprTy (.option expr_type)) nm =>
    do
      let (elem_ast, b) ← build_relational_ast b ctx (ele_with_annot expr_type nm)
      return (.option elem_ast, b)
  | e@(.mk (.complexExprTy (.orEnumeration _ _)) nm) =>
    -- `match &ele.name { Some(s) => s, None => "noname" }`
    let name := nm.getD "noname"
    do
      let ((ast, _), b) ← build_enumeration_or b ctx e name false
      return (ast, b)
  | e@(.mk (.simpleExprTy _) _) =>
    let (cn, b) := b.column_name ctx e false
    .ok (.leaf { table_name := ctx.table_name, column_name := cn,
                 column_type := e.expr_type, value := none,
                 is_index := false }, b)
termination_by ele.sz + (if ele.isOr then 2 else 0)
decreasing_by
  all_goals
    try simp only [namedPattern, Ele.sz_set_annot, Ele.sz_with_annot, Ele.sz,
      ExprTy.sz, ComplexExprTy.sz, Ele.isOr]
  all_goals (repeat' split)
  all_goals try (casesm* _ ∧ _)
  all_goals try subst_vars
  all_goals try simp_all [namedPattern, Ele.sz_set_annot, Ele.sz_with_annot,
    Ele.sz, ExprTy.sz, ComplexExprTy.sz, Ele.isOr, Ele.expr_type, Ele.name,
    ele_set_annot, ele_with_annot]
  all_goals try (casesm* _ ∧ _)
  all_goals try subst_vars
  all_goals try simp_all [Ele.sz, ExprTy.sz, ComplexExprTy.sz]
  all_goals omega

/-- `ASTBuilder::build_enumeration_or` (relational.rs:303). -/
def build_enumeration_or (b : ASTBuilder) (ctx : Context) (ele : Ele)
    (col_name : String) (is_index : Bool) :
    Except String ((RelationalAST × String) × ASTBuilder) :=
  let (cn, b) := b.column_name ctx (ele_set_annot ele (some col_name)) false
  let rel_entry : RelationalEntry :=
    { table_name := ctx.table_name, column_name := cn,
      column_type := .simpleExprTy .string, value := none,
      is_index := is_index }
  build_enumeration_or_internal b ctx ele col_name is_index (some rel_entry)
termination_by ele.sz + (if ele.isOr then 1 else 2)
decreasing_by
  all_goals
    try simp only [namedPattern, Ele.sz_set_annot, Ele.sz_with_annot, Ele.sz,
      ExprTy.sz, ComplexExprTy.sz, Ele.isOr]
  all_goals (repeat' split)
  all_goals try (casesm* _ ∧ _)
  all_goals try subst_vars
  all_goals try simp_all [namedPattern, Ele.sz_set_annot, Ele.sz_with_annot,
    Ele.sz, ExprTy.sz, ComplexExprTy.sz, Ele.isOr, Ele.expr_type, Ele.name,
    ele_set_annot, ele_with_annot]
  all_goals try (casesm* _ ∧ _)
  all_goals try subst_vars
  all_goals try simp_all [Ele.sz, ExprTy.sz, ComplexExprTy.sz]
  all_goals omega

/-- `ASTBuilder::build_enumeration_or_internal` (relational.rs:331). -/
def build_enumeration_or_internal (b : ASTBuilder) (ctx : Context) (ele : Ele)
    (col_name : String) (is_index : Bool)
    (or_unfold : Option RelationalEntry) :
    Except String ((RelationalAST × String) × ASTBuilder) :=
  match ele with
  | .mk (.complexExprTy (.orEnumeration left_type right_type)) _ =>
    do
      let ((left_ast, left_table), b) ←
        build_enumeration_or_internal b ctx left_type col_name false none
      let ((right_ast, right_table), b) ←
        build_enumeration_or_internal b ctx right_type col_name false none
      return ((.orEnumeration or_unfold
          (if left_table ≠ ctx.table_name then some left_table else none)
          left_ast
          (if right_table ≠ ctx.table_name then some right_table else none)
          right_ast, ctx.table_name), b)
  | e@(.mk (.simpleExprTy .unit) nm) =>
    let (cn, b) := b.column_name ctx (ele_set_annot e (some col_name)) false
    .ok ((.leaf { table_name := ctx.table_name, column_name := cn,
                  column_type := e.expr_type, value := nm,
                  is_index := is_index }, ctx.table_name), b)
  -- the Rust `_` catch-all (any non-or, non-unit element), with the
  -- remaining constructors spelled out:
  | e@(.mk (.complexExprTy (.pair _ _)) _)
  | e@(.mk (.complexExprTy (.list _ _)) _)
  | e@(.mk (.complexExprTy (.bigMap _ _)) _)
  | e@(.mk (.complexExprTy (.map _ _)) _)
  | e@(.mk (.complexExprTy (.option _)) _)
  | e@(.mk (.simpleExprTy .address) _)
  | e@(.mk (.simpleExprTy .bool) _)
  | e@(.mk (.simpleExprTy .bytes) _)
  | e@(.mk (.simpleExprTy .int) _)
  | e@(.mk (.simpleExprTy .nat) _)
  | e@(.mk (.simpleExprTy .mutez) _)
  | e@(.mk (.simpleExprTy .string) _)
  | e@(.mk (.simpleExprTy .keyHash) _)
  | e@(.mk (.simpleExprTy .signature) _)
  | e@(.mk (.simpleExprTy .contract) _)
  | e@(.mk (.simpleExprTy .timestamp) _)
  | e@(.mk (.simpleExprTy .stop) _) =>
    let name := match e.name with
      | some x => x
      | none =>
        let name_from_type := get_column_name e.expr_type
        if !name_from_type.isEmpty then name_from_type else "noname"
    let (ctx, b) := b.start_table ctx (ele_set_annot e (some name))
    let e' := ele_set_annot e (some ctx.table_leaf_name)
    do
      let (ast, b) ←
        if is_index then build_index b ctx e'
        else build_relational_ast b ctx e'
      return ((ast, ctx.table_name), b)
termination_by ele.sz + (if ele.isOr then 0 else 1)
decreasing_by
  all_goals
    simp only [namedPattern, Ele.sz_set_annot, Ele.sz_with_annot, Ele.sz,
      ExprTy.sz, ComplexExprTy.sz, Ele.isOr]
  all_goals (repeat' split)
  all_goals try (casesm* _ ∧ _)
  all_goals try subst_vars
  all_goals try simp_all [namedPattern, Ele.sz_set_annot, Ele.sz_with_annot,
    Ele.sz, ExprTy.sz, ComplexExprTy.sz, Ele.isOr, Ele.expr_type, Ele.name,
    ele_set_annot, ele_with_annot]
  all_goals try (casesm* _ ∧ _)
  all_goals try subst_vars
  all_goals try simp_all [Ele.sz, ExprTy.sz, ComplexExprTy.sz]
  all_goals omega

/-- `ASTBuilder::build_index` (relational.rs:424). -/
def build_index (b : ASTBuilder) (ctx : Context) (ele : Ele) :
    Except String (RelationalAST × ASTBuilder) :=
  match ele with
  | .mk (.complexExprTy (.pair left_type right_type)) nm =>
    let ctx := ctx.next_with_pfx nm
    do
      let (left, b) ← build_index b ctx.next left_type
      let (right, b) ← build_index b ctx right_type
      return (.pair left right, b)
  | e@(.mk (.complexExprTy (.orEnumeration _ _)) nm) =>
    -- `match &ele.name { Some(s) => s, None => "noname" }`
    let name := nm.getD "noname"
    do
      let ((ast, _), b) ← build_enumeration_or b ctx e name true
      return (ast, b)
  | .mk (.complexExprTy _) _ =>
    .error "unexpected input type to index"
  | e@(.mk (.simpleExprTy _) _) =>
    let (cn, b) := b.column_name ctx e true
    .ok (.leaf { table_name := ctx.table_name, column_name := cn,
                 column_type := e.expr_type, value := none,
                 is_index := true }, b)
termination_by ele.sz + (if ele.isOr then 2 else 0)
decreasing_by
  all_goals
    try simp only [namedPattern, Ele.sz_set_annot, Ele.sz_with_annot, Ele.sz,
      ExprTy.sz, ComplexExprTy.sz, Ele.isOr]
  all_goals (repeat' split)
  all_goals try (casesm* _ ∧ _)
  all_goals try subst_vars
  all_goals try simp_all [namedPattern, Ele.sz_set_annot, Ele.sz_with_annot,
    Ele.sz, ExprTy.sz, ComplexExprTy.sz, Ele.isOr, Ele.expr_type, Ele.name,
    ele_set_annot, ele_with_annot]
  all_goals try (casesm* _ ∧ _)
  all_goals try subst_vars
  all_goals try simp_all [Ele.sz, ExprTy.sz, ComplexExprTy.sz]
  all_goals omega

end

/-! ## Extraction helpers over the produced `RelationalAST`

These fold over the result tree; they are used to state the claims
(emitted child tables, leaf entries, discriminator/tag entries). -/

/-- All child tables introduced by the AST: the `table` fields of
`List`/`Map`/`BigMap` nodes and the `left_table`/`right_table` of
or-enumerations (the root `storage` table is implicit and not listed). -/
def child_tables : RelationalAST → List String
  | .option e => child_tables e
  | .pair l r => child_tables l ++ child_tables r
  | .orEnumeration _ lt l rt r =>
    lt.toList ++ child_tables l ++ rt.toList ++ child_tables r
  | .map t k v => t :: (child_tables k ++ child_tables v)
  | .bigMap t k v => t :: (child_tables k ++ child_tables v)
  | .list t _ e => t :: child_tables e
  | .leaf _ => []

/-- All `Leaf` entries of the AST, in traversal order. -/
def leaves : RelationalAST → List RelationalEntry
  | .option e => leaves e
  | .pair l r => leaves l ++ leaves r
  | .orEnumeration _ _ l _ r => leaves l ++ leaves r
  | .map _ k v => leaves k ++ leaves v
  | .bigMap _ k v => leaves k ++ leaves v
  | .list _ _ e => leaves e
  | .leaf e => [e]

/-- All discriminator (`or_unfold`) entries of the AST. -/
def tag_entries : RelationalAST → List RelationalEntry
  | .option e => tag_entries e
  | .pair l r => tag_entries l ++ tag_entries r
  | .orEnumeration u _ l _ r => u.toList ++ tag_entries l ++ tag_entries r
  | .map _ k v => tag_entries k ++ tag_entries v
  | .bigMap _ k v => tag_entries k ++ tag_entries v
  | .list _ _ e => tag_entries e
  | .leaf _ => []

/-- The column names of the leaf entries, in traversal order. -/
def leaf_columns (ast : RelationalAST) : List String :=
  (leaves ast).map (fun e => e.column_name)

end QP

deriving instance DecidableEq for Except

namespace QP

/-! ## Concrete storage-type trees used by the claims -/

/-- An unannotated `nat` leaf. -/
def natEle : Ele := .mk (.simpleExprTy .nat) none

/-- `map <n> nat nat` — a map annotated `%<n>` from nat to nat. -/
def mapEle (n : String) : Ele :=
  .mk (.complexExprTy (.map natEle natEle)) (some n)

/-- `pair (map %foo nat nat) (pair (map %foo nat nat) (map %foo_1 nat nat))`:
three sibling maps whose annotations are `foo`, `foo`, `foo_1`. -/
def c1_input : Ele :=
  .mk (.complexExprTy (.pair (mapEle "foo")
    (.mk (.complexExprTy (.pair (mapEle "foo") (mapEle "foo_1"))) none))) none

/-- The child-table names the builder emits for `c1_input`. -/
def c1_tables : Except String (List String) :=
  (build_relational_ast ASTBuilder.new Context.init c1_input).map
    (fun p => child_tables p.1)

/-- `pair %<bn> (pair %<an> (nat %<xn>, string %y)) (address %z)`: a leaf
`xn` sitting under annotated pair `an`, itself under annotated pair `bn`. -/
def c4_input (bn an xn : String) : Ele :=
  .mk (.complexExprTy (.pair
    (.mk (.complexExprTy (.pair
      (.mk (.simpleExprTy .nat) (some xn))
      (.mk (.simpleExprTy .string) (some "y")))) (some an))
    (.mk (.simpleExprTy .address) (some "z")))) (some bn)

/-- `or (unit %<l>) (unit %<r>)` with outer annotation `nm` — the
unit-armed or-enumeration shape of claims C5 and C7. -/
def orUnits (nm l r : Option String) : Ele :=
  .mk (.complexExprTy (.orEnumeration
    (.mk (.simpleExprTy .unit) l)
    (.mk (.simpleExprTy .unit) r))) nm

/-- Which arm of an or value was taken (`Left`/`Right` constructor of the
stored Michelson value). -/
inductive Side where
  | left
  | right
deriving DecidableEq, Repr

/-- Modelled from the spec: the storage-value parser
(`src/storage_update/processor.rs`, not part of the extract) handles an
`OrEnumeration` node by reading the left/right discriminator of the stored
value and setting the tag column to the chosen arm's name (spec §4.3).  For
a unit arm the arm's name is the constant `value` the builder stored in the
arm's leaf entry (spec §3, `RelationalEntry`).  This function returns the
tag value the parser writes for the chosen side. -/
def parse_or_tag (ast : RelationalAST) (side : Side) : Option String :=
  match ast with
  | .orEnumeration _ _ left_ast _ right_ast =>
    match (match side with | .left => left_ast | .right => right_ast) with
    | .leaf e => e.value
    | _ => none
  | _ => none

/-- Index-key types built only from simple leaves and pairs (the
unconditionally indexable compositions of claim C7). -/
inductive SimplePairTy : Ele → Prop where
  | simple (t : SimpleExprTy) (nm : Option String) :
      SimplePairTy (.mk (.simpleExprTy t) nm)
  | pair (l r : Ele) (nm : Option String) :
      SimplePairTy l → SimplePairTy r →
      SimplePairTy (.mk (.complexExprTy (.pair l r)) nm)

end QP

namespace QP

/-! ## Claim theorems -/

/-- **C1** (code bug.)  The claim says `build_relational_ast` emits pairwise
distinct table names for *every* input, including annotations that end in a
`_<n>` suffix.  The dedup bookkeeping in `ASTBuilder::start_table` registers
the *base* name (`table_names.insert(name, c)` runs before `name` is
re-bound to the suffixed `name_c`), so the emitted suffixed name is never a
key; a later annotation equal to such an emitted name passes the collision
check.  On `pair (map %foo ..) (pair (map %foo ..) (map %foo_1 ..))` the
builder emits the table name `storage.foo_1` twice. -/
theorem c1_duplicate_table_names :
    c1_tables = .ok ["storage.foo", "storage.foo_1", "storage.foo_1"] ∧
    ¬ (["storage.foo", "storage.foo_1", "storage.foo_1"] : List String).Nodup := by
  constructor
  · simp only [c1_tables, c1_input, mapEle, natEle, build_relational_ast,
      build_index, ASTBuilder.start_table, ASTBuilder.column_name,
      ASTBuilder.new, Context.init, alContains, alLookup, alInsert,
      ASTBuilder.bumpSuffix, Context.start_table, Context.next,
      Context.next_with_pfx, Context.apply_pfx, child_tables, ele_set_annot,
      ele_with_annot, Ele.expr_type, Ele.name, get_column_name]
    decide
  · decide

end QP

namespace QP

/-- **C4 counterexample.**  On
`pair %b (pair %a (nat %x, string %y), address %z)` the builder emits the
columns `a_x`, `a_y`, `b_z` — the leaf `x` under annotated pair `a` under
annotated pair `b` gets `a_x`, not the claimed `b_a_x`: `next_with_prefix`
*replaces* the running prefix instead of accumulating it. -/
theorem c4_counterexample :
    (build_relational_ast ASTBuilder.new Context.init (c4_input "b" "a" "x")).map
      (fun p => leaf_columns p.1) = .ok ["a_x", "a_y", "b_z"] ∧
    ("a_x" : String) ≠ "b_a_x" := by
  constructor
  · simp only [c4_input, build_relational_ast, ASTBuilder.column_name,
      ASTBuilder.new, Context.init, Context.next_with_pfx, Context.next,
      Context.apply_pfx, alContains, alLookup, alInsert, ele_set_annot,
      ele_with_annot, Ele.expr_type, Ele.name, get_column_name, leaf_columns,
      leaves, Except.bind, Except.map, bind, pure, Except.pure]
    decide
  · decide

/-- **C4** (amended.)  The emitted column name of a leaf is
`prefix ++ "_" ++ local` (no separator when the prefix is empty), but
prefixes do *not* accumulate across nested annotated pairs: an inner
annotation replaces the outer one, so a leaf `x` under annotated pair `a`
under annotated pair `b` gets the column name `a_x`. -/
theorem c4_nearest_annot_wins (a bn x : String) (ha : a ≠ "")
    (h1 : a ++ "_" ++ x ≠ "level") (h2 : a ++ "_" ++ x ≠ "level_timestamp") :
    ∃ e1 rest1 rest2 b',
      build_relational_ast ASTBuilder.new Context.init (c4_input bn a x) =
        .ok (.pair (.pair (.leaf e1) rest1) rest2, b') ∧
      e1.column_name = a ++ "_" ++ x := by
  have hne : a.isEmpty = false := by
    cases hh : a.isEmpty
    · rfl
    · exact absurd ((String.isEmpty_iff a).mp hh) ha
  simp only [c4_input, build_relational_ast, ASTBuilder.column_name,
    ASTBuilder.new, Context.init, Context.next_with_pfx, Context.next,
    Context.apply_pfx, alContains, alLookup, alInsert, ele_set_annot,
    ele_with_annot, Ele.expr_type, Ele.name, get_column_name, hne,
    Bool.false_eq_true, if_false, Option.isSome, Bool.or_eq_true,
    beq_iff_eq, h1, h2, Except.bind, Except.map, bind, pure, Except.pure]
  simp only [or_self, if_true, if_false, ite_true, ite_false]
  exact ⟨_, _, _, _, rfl, rfl⟩

/-- **C4 witness**: the amended statement at `a := "a"`, `b := "b"`,
`x := "x"`. -/
theorem c4_nearest_annot_wins_witness :
    ∃ e1 rest1 rest2 b',
      build_relational_ast ASTBuilder.new Context.init (c4_input "b" "a" "x") =
        .ok (.pair (.pair (.leaf e1) rest1) rest2, b') ∧
      e1.column_name = "a" ++ "_" ++ "x" :=
  c4_nearest_annot_wins "a" "b" "x" (by decide) (by decide) (by decide)

end QP

namespace QP

/-- **C5.**  For every or-enumeration whose two arms are both `Unit` (any
annotations, any context, any builder state): the builder emits no child
tables (`left_table = right_table = none`, no `List`/`Map`/`BigMap` node),
exactly one tag entry (the `or_unfold` discriminator, a `String` column in
the current table), and the unit-arm leaves stay in the current table
carrying the arm annotation as their constant `value`, which is what the
storage-value parser writes into the tag column for the chosen arm
(`parse_or_tag`).  Concretely, for `or (unit %mint) (unit %burn)` from the
initial context the single tag column is `noname` and the parsed tag values
are `mint` / `burn`. -/
theorem c5_unit_or_enumeration :
    (∀ (b : ASTBuilder) (ctx : Context) (nm l r : Option String),
      ∃ tagE e1 e2 b',
        build_relational_ast b ctx (orUnits nm l r) =
          .ok (.orEnumeration (some tagE) none (.leaf e1) none (.leaf e2), b') ∧
        tagE.table_name = ctx.table_name ∧
        tagE.column_type = .simpleExprTy .string ∧
        child_tables (.orEnumeration (some tagE) none (.leaf e1) none (.leaf e2)) = [] ∧
        tag_entries (.orEnumeration (some tagE) none (.leaf e1) none (.leaf e2)) = [tagE] ∧
        parse_or_tag (.orEnumeration (some tagE) none (.leaf e1) none (.leaf e2)) .left = l ∧
        parse_or_tag (.orEnumeration (some tagE) none (.leaf e1) none (.leaf e2)) .right = r ∧
        e1.table_name = ctx.table_name ∧ e2.table_name = ctx.table_name) ∧
    ((build_relational_ast ASTBuilder.new Context.init
        (orUnits none (some "mint") (some "burn"))).map
      (fun p => ((tag_entries p.1).map (fun en => en.column_name),
                 (leaves p.1).map (fun en => en.value))) =
      .ok (["noname"], [some "mint", some "burn"])) := by
  constructor
  · intro b ctx nm l r
    rw [build_relational_ast.eq_def]
    simp only [orUnits, build_enumeration_or]
    rw [build_enumeration_or_internal.eq_def]
    simp only [build_enumeration_or_internal.eq_def, Ele.expr_type, Ele.name,
      ele_set_annot, Except.bind, Except.map, bind, pure, Except.pure, ne_eq,
      not_true, if_false, ite_true, ite_false, eq_self_iff_true,
      not_true_eq_false, Bool.false_eq_true]
    exact ⟨_, _, _, _, rfl, rfl, rfl, rfl, rfl, rfl, rfl, rfl, rfl⟩
  · rw [build_relational_ast.eq_def]
    simp only [orUnits, build_enumeration_or]
    rw [build_enumeration_or_internal.eq_def]
    simp only [build_enumeration_or_internal.eq_def, Ele.expr_type, Ele.name,
      ele_set_annot, Except.bind, Except.map, bind, pure, Except.pure]
    decide

end QP

namespace QP

/-- `build_index` rejects every complex type other than `Pair` and
`OrEnumeration` with the schema error of relational.rs:449. -/
theorem build_index_err_on_nonindexable (b : ASTBuilder) (ctx : Context)
    (nm : Option String) (inner k v : Ele) (u : Bool) :
    build_index b ctx (.mk (.complexExprTy (.option inner)) nm) =
      .error "unexpected input type to index" ∧
    build_index b ctx (.mk (.complexExprTy (.list u inner)) nm) =
      .error "unexpected input type to index" ∧
    build_index b ctx (.mk (.complexExprTy (.map k v)) nm) =
      .error "unexpected input type to index" ∧
    build_index b ctx (.mk (.complexExprTy (.bigMap k v)) nm) =
      .error "unexpected input type to index" := by
  refine ⟨?_, ?_, ?_, ?_⟩ <;> rw [build_index.eq_def]

/-- `build_index` on simple-and-pair compositions succeeds and marks every
leaf entry as an index column. -/
theorem build_index_simple_pair (e : Ele) (he : SimplePairTy e) :
    ∀ (b : ASTBuilder) (ctx : Context),
      ∃ ast b', build_index b ctx e = .ok (ast, b') ∧
        ∀ en ∈ leaves ast, en.is_index = true := by
  induction he with
  | simple t nm =>
    intro b ctx
    rw [build_index.eq_def]
    exact ⟨_, _, rfl, by simp [leaves]⟩
  | pair l r nm hl hr ihl ihr =>
    intro b ctx
    rw [build_index.eq_def]
    obtain ⟨astL, bL, hL, hLi⟩ := ihl b (ctx.next_with_pfx nm).next
    obtain ⟨astR, bR, hR, hRi⟩ := ihr bL (ctx.next_with_pfx nm)
    refine ⟨.pair astL astR, bR, ?_, ?_⟩
    · simp only [hL, hR, Except.bind, bind, pure, Except.pure]
    · intro en hen
      simp only [leaves, List.mem_append] at hen
      rcases hen with h | h
      · exact hLi _ h
      · exact hRi _ h

/-- `build_index` on any or-enumeration that succeeds yields an
`orEnumeration` node whose `or_unfold` tag entry is an index column: a
`String` column of the current table with `is_index = true` (the tag
`RelationalEntry` is built by `build_enumeration_or` with the `is_index`
flag `build_index` passes, which is `true`). -/
theorem bi_or_general (b : ASTBuilder) (ctx : Context) (nm : Option String)
    (l r : Ele) (ast : RelationalAST) (b' : ASTBuilder)
    (h : build_index b ctx (.mk (.complexExprTy (.orEnumeration l r)) nm) =
      .ok (ast, b')) :
    ∃ tagE lt la rt ra, ast = .orEnumeration (some tagE) lt la rt ra ∧
      tagE.is_index = true ∧ tagE.table_name = ctx.table_name ∧
      tagE.column_type = .simpleExprTy .string ∧ tagE.value = none := by
  rw [build_index.eq_def] at h
  simp only [build_enumeration_or] at h
  rw [build_enumeration_or_internal.eq_def] at h
  simp only [bind, Except.bind, pure, Except.pure] at h
  rcases hl : build_enumeration_or_internal
      (ASTBuilder.column_name b ctx
        (ele_set_annot (.mk (.complexExprTy (.orEnumeration l r)) nm)
          (some (nm.getD "noname"))) false).2
      ctx l (nm.getD "noname") false none with e1 | v1
  · rw [hl] at h
    simp at h
  · rw [hl] at h
    simp only [reduceCtorEq] at h
    rcases hr : build_enumeration_or_internal v1.2 ctx r (nm.getD "noname")
        false none with e2 | v2
    · rw [hr] at h
      simp at h
    · rw [hr] at h
      simp at h
      obtain ⟨h1, h2⟩ := h
      subst h1
      exact ⟨_, _, _, _, _, rfl, rfl, rfl, rfl, rfl⟩

/-- `build_enumeration_or_internal` on a `Unit` arm (the arm recursion
passes `is_index = false`): the arm becomes an inline leaf of the current
table carrying the arm annotation as `value` and `is_index = false`
(relational.rs:344-359). -/
theorem beoi_unit_arm (b : ASTBuilder) (ctx : Context) (nm : Option String)
    (col : String) :
    ∃ cn b',
      build_enumeration_or_internal b ctx (.mk (.simpleExprTy .unit) nm)
        col false none =
      .ok ((.leaf { table_name := ctx.table_name, column_name := cn,
                    column_type := .simpleExprTy .unit, value := nm,
                    is_index := false }, ctx.table_name), b') := by
  rw [build_enumeration_or_internal.eq_def]
  exact ⟨_, _, rfl⟩

/-- `build_index` on `or (unit %lnm) r`: the left unit arm's leaf entry has
`is_index = false` (and stays in the current table, so the left side's
child-table slot is `none`). -/
theorem bi_or_left_unit (b : ASTBuilder) (ctx : Context)
    (nm lnm : Option String) (r : Ele) (ast : RelationalAST) (b' : ASTBuilder)
    (h : build_index b ctx (.mk (.complexExprTy
        (.orEnumeration (.mk (.simpleExprTy .unit) lnm) r)) nm) =
      .ok (ast, b')) :
    ∃ tagE cn rt ra,
      ast = .orEnumeration (some tagE) none
        (.leaf { table_name := ctx.table_name, column_name := cn,
                 column_type := .simpleExprTy .unit, value := lnm,
                 is_index := false }) rt ra := by
  rw [build_index.eq_def] at h
  simp only [build_enumeration_or] at h
  rw [build_enumeration_or_internal.eq_def] at h
  simp only [bind, Except.bind, pure, Except.pure] at h
  obtain ⟨cn1, b1, hu⟩ := beoi_unit_arm
    (ASTBuilder.column_name b ctx
      (ele_set_annot (.mk (.complexExprTy
          (.orEnumeration (.mk (.simpleExprTy .unit) lnm) r)) nm)
        (some (nm.getD "noname"))) false).2
    ctx lnm (nm.getD "noname")
  rw [hu] at h
  simp only [reduceCtorEq] at h
  rcases hr : build_enumeration_or_internal b1 ctx r (nm.getD "noname")
      false none with e2 | v2
  · rw [hr] at h
    simp at h
  · rw [hr] at h
    simp at h
    obtain ⟨h1, h2⟩ := h
    subst h1
    exact ⟨_, _, _, _, rfl⟩

/-- `build_index` on `or l (unit %rnm)`: the right unit arm's leaf entry has
`is_index = false` (and stays in the current table, so the right side's
child-table slot is `none`). -/
theorem bi_or_right_unit (b : ASTBuilder) (ctx : Context)
    (nm rnm : Option String) (l : Ele) (ast : RelationalAST) (b' : ASTBuilder)
    (h : build_index b ctx (.mk (.complexExprTy
        (.orEnumeration l (.mk (.simpleExprTy .unit) rnm))) nm) =
      .ok (ast, b')) :
    ∃ tagE cn lt la,
      ast = .orEnumeration (some tagE) lt la none
        (.leaf { table_name := ctx.table_name, column_name := cn,
                 column_type := .simpleExprTy .unit, value := rnm,
                 is_index := false }) := by
  rw [build_index.eq_def] at h
  simp only [build_enumeration_or] at h
  rw [build_enumeration_or_internal.eq_def] at h
  simp only [bind, Except.bind, pure, Except.pure] at h
  rcases hl : build_enumeration_or_internal
      (ASTBuilder.column_name b ctx
        (ele_set_annot (.mk (.complexExprTy
            (.orEnumeration l (.mk (.simpleExprTy .unit) rnm))) nm)
          (some (nm.getD "noname"))) false).2
      ctx l (nm.getD "noname") false none with e1 | v1
  · rw [hl] at h
    simp at h
  · rw [hl] at h
    simp only [reduceCtorEq] at h
    obtain ⟨cn2, b2, hu⟩ := beoi_unit_arm v1.2 ctx rnm (nm.getD "noname")
    rw [hu] at h
    simp at h
    obtain ⟨h1, h2⟩ := h
    subst h1
    exact ⟨_, _, _, _, rfl⟩

/-- `or (map %m nat nat) (unit %u)`: an or-enumeration with one non-unit
arm. -/
def c7_mixed : Ele :=
  .mk (.complexExprTy (.orEnumeration
    (.mk (.complexExprTy (.map natEle natEle)) (some "m"))
    (.mk (.simpleExprTy .unit) (some "u")))) none

/-- On `or (map %m nat nat) (unit %u)` from the initial context,
`build_index` succeeds; the single tag entry is an index, and among the
leaves the map arm's *key* leaf (in the child table `storage.m.m_1`) is also
`is_index = true` — the non-unit arm is built as a regular subtree and so
may itself contain index leaves — while the map's value leaf and the unit
arm's inline leaf (in `storage`) are not. -/
theorem bi_mixed_eval :
    (build_index ASTBuilder.new Context.init c7_mixed).map
      (fun p => ((tag_entries p.1).map (fun en => en.is_index),
                 (leaves p.1).map (fun en => (en.is_index, en.table_name)))) =
    .ok ([true],
         [(true, "storage.m.m_1"), (false, "storage.m.m_1"),
          (false, "storage")]) := by
  rw [build_index.eq_def]
  simp only [c7_mixed, build_enumeration_or]
  rw [build_enumeration_or_internal.eq_def]
  simp only [build_enumeration_or_internal.eq_def, build_relational_ast,
    build_index, ASTBuilder.start_table, ASTBuilder.column_name,
    ASTBuilder.new, ASTBuilder.bumpSuffix, Context.init, Context.start_table,
    Context.next, Context.next_with_pfx, Context.apply_pfx,
    Context.table_leaf_name, alContains, alLookup, alInsert, ele_set_annot,
    ele_with_annot, Ele.expr_type, Ele.name, get_column_name, natEle,
    tag_entries, leaves, Except.bind, Except.map, bind, pure, Except.pure]
  decide

/-- **C7 counterexample.**  `build_index` on `or (unit %mint) (unit %burn)`
succeeds, but the produced leaf entries are *not* marked `is_index = true`
(both arm leaves carry `is_index = false`), contradicting the claim that all
produced leaf entries of an indexable Pair/OrEnumeration composition are
marked as index. -/
theorem c7_index_counterexample :
    ∃ ast b',
      build_index ASTBuilder.new Context.init
        (orUnits none (some "mint") (some "burn")) = .ok (ast, b') ∧
      ¬ (∀ en ∈ leaves ast, en.is_index = true) := by
  rw [build_index.eq_def]
  simp only [orUnits, build_enumeration_or]
  rw [build_enumeration_or_internal.eq_def]
  simp only [build_enumeration_or_internal.eq_def, Ele.expr_type, Ele.name,
    ele_set_annot, Except.bind, Except.map, bind, pure, Except.pure]
  exact ⟨_, _, rfl, by decide⟩

/-- **C7** (amended.)  `build_index` errors (`SchemaError::Unindexable`) on
every `Option`/`List`/`Map`/`BigMap` element; it succeeds on every simple
type and on every pair composition of such, marking all produced leaf
entries `is_index = true`; on every or-enumeration on which it succeeds, the
tag (`or_unfold`) entry is an index (`is_index = true`, a `String` column of
the current table), while the arms are recursed with `is_index = false`, so
a `Unit` arm's inline leaf entry (left or right) has `is_index = false` —
though a non-unit arm, built as a regular subtree in its own child table,
may itself contain index leaves: on `or (map %m nat nat) (unit %u)` the map
arm's key leaf in the child table `storage.m.m_1` has `is_index = true`
while the unit arm's leaf does not. -/
theorem c7_build_index_behaviour :
    (∀ (b : ASTBuilder) (ctx : Context) (nm : Option String)
        (inner k v : Ele) (u : Bool),
      build_index b ctx (.mk (.complexExprTy (.option inner)) nm) =
        .error "unexpected input type to index" ∧
      build_index b ctx (.mk (.complexExprTy (.list u inner)) nm) =
        .error "unexpected input type to index" ∧
      build_index b ctx (.mk (.complexExprTy (.map k v)) nm) =
        .error "unexpected input type to index" ∧
      build_index b ctx (.mk (.complexExprTy (.bigMap k v)) nm) =
        .error "unexpected input type to index") ∧
    (∀ (e : Ele), SimplePairTy e → ∀ (b : ASTBuilder) (ctx : Context),
      ∃ ast b', build_index b ctx e = .ok (ast, b') ∧
        ∀ en ∈ leaves ast, en.is_index = true) ∧
    (∀ (b : ASTBuilder) (ctx : Context) (nm : Option String) (l r : Ele)
        (ast : RelationalAST) (b' : ASTBuilder),
      build_index b ctx (.mk (.complexExprTy (.orEnumeration l r)) nm) =
        .ok (ast, b') →
      ∃ tagE lt la rt ra, ast = .orEnumeration (some tagE) lt la rt ra ∧
        tagE.is_index = true ∧ tagE.table_name = ctx.table_name ∧
        tagE.column_type = .simpleExprTy .string ∧ tagE.value = none) ∧
    (∀ (b : ASTBuilder) (ctx : Context) (nm lnm : Option String) (r : Ele)
        (ast : RelationalAST) (b' : ASTBuilder),
      build_index b ctx (.mk (.complexExprTy
          (.orEnumeration (.mk (.simpleExprTy .unit) lnm) r)) nm) =
        .ok (ast, b') →
      ∃ tagE cn rt ra,
        ast = .orEnumeration (some tagE) none
          (.leaf { table_name := ctx.table_name, column_name := cn,
                   column_type := .simpleExprTy .unit, value := lnm,
                   is_index := false }) rt ra) ∧
    (∀ (b : ASTBuilder) (ctx : Context) (nm rnm : Option String) (l : Ele)
        (ast : RelationalAST) (b' : ASTBuilder),
      build_index b ctx (.mk (.complexExprTy
          (.orEnumeration l (.mk (.simpleExprTy .unit) rnm))) nm) =
        .ok (ast, b') →
      ∃ tagE cn lt la,
        ast = .orEnumeration (some tagE) lt la none
          (.leaf { table_name := ctx.table_name, column_name := cn,
                   column_type := .simpleExprTy .unit, value := rnm,
                   is_index := false })) ∧
    ((build_index ASTBuilder.new Context.init c7_mixed).map
      (fun p => ((tag_entries p.1).map (fun en => en.is_index),
                 (leaves p.1).map (fun en => (en.is_index, en.table_name)))) =
      .ok ([true],
           [(true, "storage.m.m_1"), (false, "storage.m.m_1"),
            (false, "storage")])) :=
  ⟨build_index_err_on_nonindexable, build_index_simple_pair,
   bi_or_general, bi_or_left_unit, bi_or_right_unit, bi_mixed_eval⟩

/-- **C7 witness**: the amended statement applied at the concrete pair
`pair nat address` (an indexable composition) with the `SimplePairTy`
hypothesis discharged explicitly. -/
theorem c7_build_index_behaviour_witness :
    ∃ ast b',
      build_index ASTBuilder.new Context.init
        (.mk (.complexExprTy (.pair natEle (.mk (.simpleExprTy .address) none)))
          none) = .ok (ast, b') ∧
      ∀ en ∈ leaves ast, en.is_index = true :=
  c7_build_index_behaviour.2.1 _
    (SimplePairTy.pair _ _ _ (SimplePairTy.simple .nat none)
      (SimplePairTy.simple .address none))
    ASTBuilder.new Context.init

end QP

namespace QP

/-! ## Executor model (`src/highlevel.rs`)

`LevelMeta` (from `src/octez/block.rs`, not in the extract) as used by
`ensure_level_hash` and the levels table: per-block metadata with optional
hash fields (the `baked_at` timestamp plays no role in the embedded
fragment and is omitted).  The DB's `levels` table (`DBClient::get_level`)
is a partial map from level to row.  Rust `u32` level arithmetic
(`level - 1`, `level + 1`) is modelled with explicit wrap-around modulo
`2^32` (release-profile wrapping semantics). -/

structure LevelMeta where
  level : Nat
  hash : Option String
  prev_hash : Option String
deriving DecidableEq, Repr

def DB : Type := Nat → Option LevelMeta

def U32_MOD : Nat := 4294967296

/-- `level - 1` on `u32`. -/
def u32_sub_one (l : Nat) : Nat := (l + (U32_MOD - 1)) % U32_MOD

/-- `level + 1` on `u32`. -/
def u32_add_one (l : Nat) : Nat := (l + 1) % U32_MOD

/-- `struct BadLevelHash { level: u32, err: anyhow::Error }`
(highlevel.rs:77). -/
structure BadLevelHash where
  level : Nat
  err : String
deriving DecidableEq, Repr

/-- `Executor::ensure_level_hash` (highlevel.rs:545): check the new block's
`prev_hash` against the stored hash of `L-1` (if that row exists and has a
recorded hash) and the new block's `hash` against the stored `prev_hash` of
`L+1` (if that row exists and has a recorded predecessor hash).  The
`BadLevelHash` carries the *neighbour row's* own `level` field. -/
def ensure_level_hash (db : DB) (level : Nat) (hash prev_hash : String) :
    Except BadLevelHash Unit := do
  let prev := db (u32_sub_one level)
  (match prev with
   | some prow =>
     (match prow.hash with
      | some db_prev_hash =>
        if db_prev_hash = prev_hash then .ok () else
          .error ⟨prow.level,
            "level " ++ toString level ++ " has different predecessor hash (" ++
            prev_hash ++ ") than previous recorded level's hash (" ++
            db_prev_hash ++ ") in db"⟩
      | none => .ok ())
   | none => .ok ())
  let next := db (u32_add_one level)
  (match next with
   | some nrow =>
     (match nrow.prev_hash with
      | some db_next_prev_hash =>
        if db_next_prev_hash = hash then .ok () else
          .error ⟨nrow.level,
            "level " ++ toString level ++ " has different hash (" ++ hash ++
            ") than next recorded level's predecessor hash (" ++
            db_next_prev_hash ++ ") in db"⟩
      | none => .ok ())
   | none => .ok ())

/-- Modelled from the spec: `DBClient::delete_level` (`src/sql/db.rs`, not
in the extract) — "delete_level(L)" removes the DB rows recorded for level
`L`; on the `levels` table this clears the row for `L`. -/
def delete_level (db : DB) (lvl : Nat) : DB :=
  fun l => if l = lvl then none else db l

/-- The level a `BadLevelHash` from processing block
`(level, hash, prev_hash)` points at, if any: `exec_continuous`
(highlevel.rs:268-280) deletes exactly this level from the DB, and
`exec_for_block` (highlevel.rs:595-606) reprocesses exactly this level via
`exec_level`. -/
def reorg_bad_level (db : DB) (level : Nat) (hash prev_hash : String) :
    Option Nat :=
  match ensure_level_hash db level hash prev_hash with
  | .ok _ => none
  | .error e => some e.level

/-- The reorg handling of `exec_continuous` (highlevel.rs:268-280): on a
`BadLevelHash`, delete the level it names; otherwise leave the DB alone. -/
def exec_continuous_reorg (db : DB) (level : Nat) (hash prev_hash : String) :
    DB :=
  match ensure_level_hash db level hash prev_hash with
  | .ok _ => db
  | .error e => delete_level db e.level

/-- The loop body of `Executor::exec_levels` (highlevel.rs:310-326):
`have_floor = !self.all_contracts`; every input level `l` with
`have_floor && l < level_floor` is skipped, every other level is sent to
the fetcher channel, in input order.  Returns the sent levels. -/
def exec_levels_sent (have_floor : Bool) (level_floor : Nat) :
    List Nat → List Nat
  | [] => []
  | l :: ls =>
    if have_floor && decide (l < level_floor) then
      exec_levels_sent have_floor level_floor ls
    else
      l :: exec_levels_sent have_floor level_floor ls

/-- `Executor::exec_levels` with the `have_floor` flag computed from
all-contracts mode, as in the source. -/
def exec_levels (all_contracts : Bool) (level_floor : Nat)
    (levels : List Nat) : List Nat :=
  exec_levels_sent (!all_contracts) level_floor levels

end QP

namespace QP

/-- **C2.**  For every DB state and u32 level, `ensure_level_hash` returns
`Ok` exactly when (a) if the DB row for `L-1` exists and has a recorded
hash, that hash equals the block's `prev_hash`, and (b) if the DB row for
`L+1` exists and has a recorded predecessor hash, it equals the block's
`hash`; and the check itself fails only with a `BadLevelHash` (the model's
error type), never any other error kind. -/
theorem c2_ensure_level_hash_iff (db : DB) (level : Nat)
    (hash prev_hash : String) (_hlt : level < U32_MOD) :
    (ensure_level_hash db level hash prev_hash = .ok () ↔
      ((∀ prow h, db (u32_sub_one level) = some prow → prow.hash = some h →
          h = prev_hash) ∧
       (∀ nrow p, db (u32_add_one level) = some nrow →
          nrow.prev_hash = some p → p = hash))) ∧
    (ensure_level_hash db level hash prev_hash ≠ .ok () ↔
      ∃ e : BadLevelHash,
        ensure_level_hash db level hash prev_hash = .error e) := by
  constructor
  · unfold ensure_level_hash
    rcases hp : db (u32_sub_one level) with _ | prow <;>
      rcases hn : db (u32_add_one level) with _ | nrow
    · simp [bind, Except.bind]
    · rcases hph : nrow.prev_hash with _ | np
      · simp [bind, Except.bind, hph] <;> (try constructor) <;>
          (try (intro r p h1 h2; subst h1; simp_all))
      · by_cases hcmp : np = hash
        · simp [bind, Except.bind, hph, hcmp] <;> (try constructor) <;>
            (try (intro r p h1 h2; subst h1; simp_all))
        · simp [bind, Except.bind, hph, hcmp] <;> (try constructor) <;>
            (try (intro r p h1 h2; subst h1; simp_all))
    · rcases hph : prow.hash with _ | ph
      · simp [bind, Except.bind, hph] <;> (try constructor) <;>
          (try (intro r p h1 h2; subst h1; simp_all))
      · by_cases hcmp : ph = prev_hash
        · simp [bind, Except.bind, hph, hcmp] <;> (try constructor) <;>
            (try (intro r p h1 h2; subst h1; simp_all))
        · simp [bind, Except.bind, hph, hcmp] <;> (try constructor) <;>
            (try (intro r p h1 h2; subst h1; simp_all))
    · rcases hph : prow.hash with _ | ph <;>
        rcases hnh : nrow.prev_hash with _ | np
      · simp [bind, Except.bind, hph, hnh] <;> (try constructor) <;>
          (try (intro r p h1 h2; subst h1; simp_all))
      · by_cases hcmp : np = hash
        · simp [bind, Except.bind, hph, hnh, hcmp] <;> (try constructor) <;>
            (try (intro r p h1 h2; subst h1; simp_all))
        · simp [bind, Except.bind, hph, hnh, hcmp] <;> (try constructor) <;>
            (try (intro r p h1 h2; subst h1; simp_all))
      · by_cases hcmp : ph = prev_hash
        · simp [bind, Except.bind, hph, hnh, hcmp] <;> (try constructor) <;>
            (try (intro r p h1 h2; subst h1; simp_all))
        · simp [bind, Except.bind, hph, hnh, hcmp] <;> (try constructor) <;>
            (try (intro r p h1 h2; subst h1; simp_all))
      · by_cases hcmp : ph = prev_hash <;> by_cases hcmp2 : np = hash
        · simp [bind, Except.bind, hph, hnh, hcmp, hcmp2] <;>
            (try constructor) <;>
            (try (intro r p h1 h2; subst h1; simp_all))
        · simp [bind, Except.bind, hph, hnh, hcmp, hcmp2] <;>
            (try constructor) <;>
            (try (intro r p h1 h2; subst h1; simp_all))
        · simp [bind, Except.bind, hph, hnh, hcmp, hcmp2] <;>
            (try constructor) <;>
            (try (intro r p h1 h2; subst h1; simp_all))
        · simp [bind, Except.bind, hph, hnh, hcmp, hcmp2] <;>
            (try constructor) <;>
            (try (intro r p h1 h2; subst h1; simp_all))
  · cases h : ensure_level_hash db level hash prev_hash with
    | ok u => cases u; simp [h]
    | error e => simp [h]

/-- **C2 witness**: the characterisation applied to the empty DB at level 5
(both conditions hold vacuously, so the check passes). -/
theorem c2_ensure_level_hash_iff_witness :
    ensure_level_hash (fun _ => none) 5 "h" "p" = .ok () :=
  ((c2_ensure_level_hash_iff (fun _ => none) 5 "h" "p" (by decide)).1).mpr
    ⟨fun _prow _h hh => Option.noConfusion hh,
     fun _nrow _p hh => Option.noConfusion hh⟩

/-- **C10.**  `ensure_level_hash` never compares against a neighbour whose
stored `hash` (for `L-1`) resp. `prev_hash` (for `L+1`) is absent: whenever
those fields are `None` (the rows may well exist), the check passes, so a
block adjacent to a filled-in empty level cannot trigger `BadLevelHash`. -/
theorem c10_none_neighbour_hash_passes (db : DB) (level : Nat)
    (hash prev_hash : String)
    (hprev : ∀ prow, db (u32_sub_one level) = some prow → prow.hash = none)
    (hnext : ∀ nrow, db (u32_add_one level) = some nrow →
      nrow.prev_hash = none) :
    ensure_level_hash db level hash prev_hash = .ok () := by
  unfold ensure_level_hash
  rcases hp : db (u32_sub_one level) with _ | prow <;>
    rcases hn : db (u32_add_one level) with _ | nrow <;>
    simp_all [bind, Except.bind]

/-- A DB holding filled-in empty neighbours of level 101: rows exist for
levels 100 and 102 but level 100 has no recorded hash and level 102 no
recorded predecessor hash. -/
def c10_db : DB := fun l =>
  if l = 100 then some ⟨100, none, none⟩
  else if l = 102 then some ⟨102, some "x", none⟩
  else none

/-- **C10 witness**: with both neighbour rows present but their compared
fields `None`, processing level 101 passes the hash-chain check. -/
theorem c10_none_neighbour_hash_passes_witness :
    ensure_level_hash c10_db 101 "h" "p" = .ok () :=
  c10_none_neighbour_hash_passes c10_db 101 "h" "p"
    (by
      intro prow h
      rw [show u32_sub_one 101 = 100 from by decide] at h
      simp [c10_db] at h
      simp [← h])
    (by
      intro nrow h
      rw [show u32_add_one 101 = 102 from by decide] at h
      simp [c10_db] at h
      simp [← h])

/-- A DB with mutually consistent rows for levels 100, 101 and 102
(`levels[101].prev_hash = levels[100].hash`,
`levels[102].prev_hash = levels[101].hash`). -/
def c3_db : DB := fun l =>
  if l = 100 then some ⟨100, some "h100", some "h99"⟩
  else if l = 101 then some ⟨101, some "h101", some "h100"⟩
  else if l = 102 then some ⟨102, some "h102", some "h101"⟩
  else none

/-- **C3 counterexample.**  Re-executing level 101 with a changed hash
(`h101x`, same predecessor `h100`) makes the check fail against the stored
`levels[102].prev_hash`, and the `BadLevelHash` names level **102**: the
level deleted by `exec_continuous`'s reorg handling (and reprocessed by
`exec_for_block`) is 102, not 100 — row 100 is left untouched. -/
theorem c3_counterexample :
    reorg_bad_level c3_db 101 "h101x" "h100" = some 102 ∧
    some (102 : Nat) ≠ some 100 ∧
    exec_continuous_reorg c3_db 101 "h101x" "h100" 100 = c3_db 100 ∧
    c3_db 100 ≠ none ∧
    exec_continuous_reorg c3_db 101 "h101x" "h100" 102 = none := by
  refine ⟨?_, by decide, ?_, by decide, ?_⟩ <;> decide

/-- **C3** (amended.)  Starting from a DB with mutually consistent rows for
levels 100, 101 and 102, re-executing level 101 with a block whose hash
differs from the stored one (same predecessor hash) trips the check against
the stored `levels[102].prev_hash`; the resulting `BadLevelHash` names
level **102**, which is the level `exec_continuous` deletes (and
`exec_for_block` reprocesses), while rows 100 and 101 stay in place. -/
theorem c3_reorg_deletes_level_102 (db : DB)
    (h100 h101 h102 prev100 newhash : String)
    (hdb100 : db 100 = some ⟨100, some h100, some prev100⟩)
    (hdb101 : db 101 = some ⟨101, some h101, some h100⟩)
    (hdb102 : db 102 = some ⟨102, some h102, some h101⟩)
    (hne : newhash ≠ h101) :
    reorg_bad_level db 101 newhash h100 = some 102 ∧
    exec_continuous_reorg db 101 newhash h100 102 = none ∧
    exec_continuous_reorg db 101 newhash h100 100 = db 100 ∧
    exec_continuous_reorg db 101 newhash h100 101 = db 101 := by
  have hsub : u32_sub_one 101 = 100 := by decide
  have hadd : u32_add_one 101 = 102 := by decide
  have hens : ensure_level_hash db 101 newhash h100 =
      .error ⟨102,
        "level " ++ toString 101 ++ " has different hash (" ++ newhash ++
        ") than next recorded level's predecessor hash (" ++
        h101 ++ ") in db"⟩ := by
    unfold ensure_level_hash
    rw [hsub, hadd, hdb100, hdb102]
    have hne2 : ¬(h101 = newhash) := fun h => hne h.symm
    simp [bind, Except.bind, hne2]
  refine ⟨?_, ?_, ?_, ?_⟩ <;>
    simp [reorg_bad_level, exec_continuous_reorg, delete_level, hens,
      hdb100, hdb101]

/-- **C3 witness**: the amended statement at the concrete DB `c3_db` and
the new hash `h101x`. -/
theorem c3_reorg_deletes_level_102_witness :
    reorg_bad_level c3_db 101 "h101x" "h100" = some 102 ∧
    exec_continuous_reorg c3_db 101 "h101x" "h100" 102 = none ∧
    exec_continuous_reorg c3_db 101 "h101x" "h100" 100 = c3_db 100 ∧
    exec_continuous_reorg c3_db 101 "h101x" "h100" 101 = c3_db 101 :=
  c3_reorg_deletes_level_102 c3_db "h100" "h101" "h102" "h99" "h101x"
    (by decide) (by decide) (by decide) (by decide)

/-- **C8.**  `exec_levels` forwards to the fetcher channel exactly the
levels `l ≥ level_floor`, in input order, when all-contracts mode is off
(`all_contracts = false`); with all-contracts mode on, no level is
dropped. -/
theorem c8_exec_levels_floor (level_floor : Nat) (levels : List Nat) :
    exec_levels false level_floor levels =
      levels.filter (fun l => decide (level_floor ≤ l)) ∧
    exec_levels true level_floor levels = levels := by
  constructor
  · induction levels with
    | nil => rfl
    | cons l ls ih =>
      simp only [exec_levels, exec_levels_sent, Bool.not_false, Bool.true_and,
        List.filter] at *
      by_cases h : l < level_floor
      · simp [h, Nat.not_le.mpr h, ih]
      · simp [h, Nat.not_lt.mp h, ih]
  · induction levels with
    | nil => rfl
    | cons l ls ih =>
      simp only [exec_levels, exec_levels_sent, Bool.not_true,
        Bool.false_and, if_false] at *
      simp [ih]

end QP

namespace QP

/-! ## Configuration (`src/config.rs`)

`init_config` is embedded over the resolved clap matches and the process
environment: `ArgMatches` holds, per declared command-line option, the
value clap parsed (`none` when absent; `Bool` for the flag options), plus
whether the `generate-sql` subcommand was given; `EnvVars` holds the
environment variables the source reads.  Panics of the source
(`.unwrap()` on a missing value, a failed `parse`) are modelled as
`Except.error`. -/

structure ContractID where
  address : String
  name : String
deriving DecidableEq, Repr

structure Config where
  contract_id : ContractID
  database_url : String
  ssl : Bool
  ca_cert : Option String
  generate_sql : Bool
  init : Bool
  levels : List Nat
  node_url : String
  network : String
  bcd_url : Option String
  workers_cap : Nat
deriving DecidableEq, Repr

structure ArgMatches where
  contract_id : Option String
  database_url : Option String
  ssl : Bool
  ca_cert : Option String
  generate_sql : Bool
  node_url : Option String
  network : Option String
  bcd_url : Option String
  workers_cap : Option String
  levels : Option String
  init : Bool
  subcommand_generate_sql : Bool
deriving DecidableEq, Repr

structure EnvVars where
  contract_id : Option String
  database_url : Option String
  node_url : Option String
  network : Option String
  workers_cap : Option String
deriving DecidableEq, Repr

/-- Decimal parsing, `str::parse::<usize>`: every character a decimal
digit, at least one digit.  (Rust's `parse` additionally tolerates one
leading `+`, which no caller in this configuration path relies on.) -/
def parse_usize (s : String) : Option Nat :=
  if s.data ≠ [] ∧ s.data.all (fun c => decide (48 ≤ c.toNat ∧ c.toNat ≤ 57))
  then some (s.data.foldl (fun acc c => acc * 10 + (c.toNat - 48)) 0)
  else none

/-- One comma-separated item of the `--levels` argument (config.rs:204):
either `a-b` (inclusive range; empty when `a > b`, matching `a..=b`) or a single
number; a parse failure is the source's `.unwrap()` panic. -/
def range_item (s : String) : Except String (List Nat) :=
  if s.data.contains '-' then
    let fromto := s.splitOn "-"
    match (fromto.get? 0).bind parse_usize,
          (fromto.get? 1).bind parse_usize with
    | some a, some b => .ok (List.range' a (b + 1 - a))
    | _, _ => .error "range: parse failure (panic)"
  else
    match parse_usize s with
    | some n => .ok [n]
    | none => .error "range: parse failure (panic)"

/-- `fn range(arg: &str) -> Vec<u32>` (config.rs:204): split on `','`,
parse each item, sort ascending (`sort_unstable`). -/
def range (arg : String) : Except String (List Nat) := do
  let lists ← (arg.splitOn ",").mapM range_item
  .ok ((lists.flatten).mergeSort (fun a b => decide (a ≤ b)))

/-- `init_config` (config.rs:30-201), from the point where the clap matches
are available.  Note config.rs:124: `config.contract_id.name` is set to the
hard-coded constant `"KT1B5Jg8unLXy2kvLGDEfvbcca3hQ29d8WhF"` no matter
which contract address was configured.  Note also config.rs:152: `ca_cert`
is read back via `margs` lookup of `"ssl-cert"`, an arg name that was never
declared (the flag was declared as `"ca-cert"`), so clap always yields
`None` there. -/
def init_config (margs : ArgMatches) (env : EnvVars) :
    Except String Config := do
  let contract_address ←
    match margs.contract_id.orElse (fun _ => env.contract_id) with
    | some s => Except.ok s
    | none => Except.error "CONTRACT_ID not set (panic)"
  let contract_id : ContractID :=
    { address := contract_address,
      name := "KT1B5Jg8unLXy2kvLGDEfvbcca3hQ29d8WhF" }
  let generate_sql := margs.subcommand_generate_sql || margs.generate_sql
  let database_url ←
    if !generate_sql then
      match margs.database_url.orElse (fun _ => env.database_url) with
      | some s => Except.ok s
      | none =>
        Except.error "Database URL must be set either on the command line or in the environment"
    else Except.ok ""
  let sslPair :=
    if margs.ssl then (true, (none : Option String)) else (false, none)
  let init := margs.init
  let levels ←
    match margs.levels with
    | some x => range x
    | none => Except.ok []
  let node_url ←
    match margs.node_url.orElse (fun _ => env.node_url) with
    | some s => Except.ok s
    | none =>
      Except.error "Node URL must be set either on the command line or in the environment"
  let bcd_url := margs.bcd_url
  let network := (margs.network.orElse (fun _ => env.network)).getD "mainnet"
  let workers_cap_str :=
    match margs.workers_cap with
    | some s => s
    | none => env.workers_cap.getD "10"
  let workers_cap ←
    match parse_usize workers_cap_str with
    | some n => Except.ok n
    | none => Except.error "workers_cap parse error"
  let workers_cap := if workers_cap == 0 then 1 else workers_cap
  Except.ok
    { contract_id := contract_id, database_url := database_url,
      ssl := sslPair.1, ca_cert := sslPair.2, generate_sql := generate_sql,
      init := init, levels := levels, node_url := node_url,
      network := network, bcd_url := bcd_url, workers_cap := workers_cap }

end QP

namespace QP

/-- **C6.**  For every accepted CLI/environment configuration (every run of
`init_config` that returns `Ok`), the resulting `contract_id.name` is the
hard-coded constant `"KT1B5Jg8unLXy2kvLGDEfvbcca3hQ29d8WhF"`, while the
configured contract address (CLI flag, falling back to the `CONTRACT_ID`
environment variable) only lands in `contract_id.address`. -/
theorem c6_contract_name_hardcoded (margs : ArgMatches) (env : EnvVars)
    (cfg : Config) (h : init_config margs env = .ok cfg) :
    cfg.contract_id.name = "KT1B5Jg8unLXy2kvLGDEfvbcca3hQ29d8WhF" ∧
    margs.contract_id.orElse (fun _ => env.contract_id) =
      some cfg.contract_id.address := by
  unfold init_config at h
  simp only [bind, Except.bind] at h
  repeat' split at h
  all_goals
    first
      | (injection h with h'; subst h'; exact ⟨rfl, by assumption⟩)
      | injection h

/-- A concrete accepted configuration: contract, database and node URL on
the command line, nothing in the environment. -/
def c6_margs : ArgMatches :=
  { contract_id := some "KT1xyz", database_url := some "postgres://db",
    ssl := false, ca_cert := none, generate_sql := false,
    node_url := some "http://node", network := none, bcd_url := none,
    workers_cap := none, levels := none, init := false,
    subcommand_generate_sql := false }

def c6_env : EnvVars :=
  { contract_id := none, database_url := none, node_url := none,
    network := none, workers_cap := none }

/-- The configuration `init_config` produces for `c6_margs` / `c6_env`. -/
def c6_cfg : Config :=
  { contract_id := { address := "KT1xyz",
                     name := "KT1B5Jg8unLXy2kvLGDEfvbcca3hQ29d8WhF" },
    database_url := "postgres://db", ssl := false, ca_cert := none,
    generate_sql := false, init := false, levels := [],
    node_url := "http://node", network := "mainnet", bcd_url := none,
    workers_cap := 10 }

/-- **C6 witness**: the theorem applied at the concrete configuration. -/
theorem c6_contract_name_hardcoded_witness :
    c6_cfg.contract_id.name = "KT1B5Jg8unLXy2kvLGDEfvbcca3hQ29d8WhF" ∧
    c6_margs.contract_id.orElse (fun _ => c6_env.contract_id) =
      some c6_cfg.contract_id.address :=
  c6_contract_name_hardcoded c6_margs c6_env c6_cfg (by rfl)

end QP

namespace QP

/-! ## DDL/view generator (`src/sql/postgresql_generator.rs`)

`Column` and `Table` live in `src/sql/table.rs`, which is not in the
extract; the fields below are the ones the embedded generator functions
read (spec §3 lists `Table` as `{name, columns[], indices[],
has_uniqueness}`).  The generator's `create_sql` matches an 11-variant
`SimpleExprTy` (without `Signature`/`Contract`, which `relational.rs`'s
version does have — the tree holds two typing versions); the two variants
absent from the generator's match are mapped to `none` here, which no
claim depends on. -/

structure Column where
  name : String
  column_type : SimpleExprTy
deriving DecidableEq, Repr

structure Table where
  name : String
  indices : List String
  columns : List Column
  has_uniqueness : Bool
deriving DecidableEq, Repr

namespace PostgresqlGenerator

/-- `PostgresqlGenerator::quote_id` (postgresql_generator.rs:37). -/
def quote_id (s : String) : String := "\"" ++ s ++ "\""

def address (name : String) : String := name ++ " VARCHAR(127) NULL"
def bool (name : String) : String := name ++ " BOOLEAN NULL"
def bytes (name : String) : String := name ++ " TEXT NULL"
def int (name : String) : String := name ++ " NUMERIC(64) NULL"
def nat (name : String) : String := name ++ " NUMERIC(64) NULL"
def numeric (name : String) : String := name ++ " NUMERIC(64) NULL"
def string (name : String) : String := name ++ " TEXT NULL"
def timestamp (name : String) : String :=
  name ++ " TIMESTAMP WITH TIME ZONE NULL"
def unit (name : String) : String := name ++ " VARCHAR(128) NULL"

/-- `PostgresqlGenerator::create_sql` (postgresql_generator.rs:20). -/
def create_sql (column : Column) : Option String :=
  let name := quote_id column.name
  match column.column_type with
  | .address => some (address name)
  | .bool => some (bool name)
  | .bytes => some (bytes name)
  | .int => some (int name)
  | .keyHash => some (string name)
  | .mutez => some (numeric name)
  | .nat => some (nat name)
  | .stop => none
  | .string => some (string name)
  | .timestamp => some (timestamp name)
  | .unit => some (unit name)
  | .signature => none
  | .contract => none

/-- `PostgresqlGenerator::parent_name` (postgresql_generator.rs:135): the
prefix before the last `'.'`, when there is one. -/
def parent_name (name : String) : Option String :=
  if name.data.contains '.' then
    some (String.mk (((name.data.reverse.dropWhile (· ≠ '.'))).tail.reverse))
  else none

/-- `PostgresqlGenerator::table_sql_columns` (postgresql_generator.rs:98):
the names of the materializable columns, plus the `<parent>_id` column for
a non-root table, all double-quoted. -/
def table_sql_columns (table : Table) : List String :=
  let cols :=
    (table.columns.filter (fun c => (create_sql c).isSome)).map
      (fun c => c.name)
  let cols :=
    match parent_name table.name with
    | some x => cols ++ [x ++ "_id"]
    | none => cols
  cols.map quote_id

/-- `PostgresqlGenerator::create_view_definition`
(postgresql_generator.rs:176): the empty string for the root `storage`
table, otherwise the `CREATE VIEW "<name>_live"` statement joining the
table's rows to `tx_contexts` at the maximal recorded `tx_contexts.level`
for that table. -/
def create_view_definition (table : Table) : Except String String :=
  if table.name == "storage" then .ok "" else
  let columns := table_sql_columns table
  .ok ("\nCREATE VIEW \"" ++ table.name ++ "_live\" AS (\n    SELECT\n        "
    ++ String.intercalate ", " columns
    ++ "\n    FROM \"" ++ table.name
    ++ "\" t1\n    JOIN tx_contexts ctx\n      ON  ctx.id = t1.tx_context_id\n      AND ctx.level = (\n            SELECT\n                MAX(ctx.level) AS _level\n            FROM \"" ++ table.name
    ++ "\" custom_table\n            JOIN tx_contexts ctx ON custom_table.tx_context_id = ctx.id\n        )\n);\n")

end PostgresqlGenerator

end QP

namespace QP

open PostgresqlGenerator

/-- For strings, the middle factor of a three-part concatenation is an
infix of the whole (at the character-list level). -/
theorem str_infix_mid (a b c : String) : b.data <:+: (a ++ b ++ c).data := by
  simp only [String.data_append]
  exact List.infix_append _ _ _

theorem str_append_assoc (x y z : String) : x ++ y ++ z = x ++ (y ++ z) := by
  apply String.ext
  simp [String.data_append]

set_option maxRecDepth 16384 in
/-- **C9.**  `create_view_definition` returns the empty string exactly for
the root table named `storage`; for every other table it returns a
`CREATE VIEW "<name>_live"` statement that selects the table's rows
(`FROM "<name>"`) joined to `tx_contexts` at the maximal recorded
`tx_contexts.level` for that table (`MAX(ctx.level)`). -/
theorem c9_create_view_definition :
    (∀ t : Table, (create_view_definition t = .ok "" ↔ t.name = "storage")) ∧
    (∀ t : Table, t.name ≠ "storage" →
      ∃ s, create_view_definition t = .ok s ∧
        ("CREATE VIEW \"" ++ t.name ++ "_live\"").data <:+: s.data ∧
        ("MAX(ctx.level)" : String).data <:+: s.data ∧
        ("FROM \"" ++ t.name ++ "\"").data <:+: s.data) := by
  constructor
  · intro t
    constructor
    · intro h
      by_cases hn : t.name = "storage"
      · exact hn
      · exfalso
        have hbeq : (t.name == "storage") = false := by simp [hn]
        unfold create_view_definition at h
        rw [hbeq] at h
        simp only [Bool.false_eq_true, if_false] at h
        injection h with h'
        have hl := congrArg (fun s : String => s.data.length) h'
        have hx : 0 < ("\nCREATE VIEW \"" : String).data.length := by decide
        simp [String.data_append, List.length_append] at hl
    · intro hn
      unfold create_view_definition
      rw [show (t.name == "storage") = true by simp [hn]]
      simp
  · intro t h
    have hbeq : (t.name == "storage") = false := by simp [h]
    unfold create_view_definition
    rw [hbeq]
    simp only [Bool.false_eq_true, if_false]
    refine ⟨_, rfl, ?_, ?_, ?_⟩
    · have h1 : ("\nCREATE VIEW \"" : String) = "\n" ++ "CREATE VIEW \"" := by
        decide
      have h2 : ("_live\" AS (\n    SELECT\n        " : String) =
          "_live\"" ++ " AS (\n    SELECT\n        " := by decide
      rw [h1, h2]
      calc ("CREATE VIEW \"" ++ t.name ++ "_live\"").data
          <:+: (("\n" ++ ("CREATE VIEW \"" ++ t.name ++ "_live\"") ++
                (" AS (\n    SELECT\n        " ++
                 String.intercalate ", " (table_sql_columns t) ++
                 ("\n    FROM \"" ++ t.name ++
                  ("\" t1\n    JOIN tx_contexts ctx\n      ON  ctx.id = t1.tx_context_id\n      AND ctx.level = (\n            SELECT\n                MAX(ctx.level) AS _level\n            FROM \"" ++ t.name ++
                   "\" custom_table\n            JOIN tx_contexts ctx ON custom_table.tx_context_id = ctx.id\n        )\n);\n"))))).data :=
            str_infix_mid _ _ _
        _ = _ := by simp only [str_append_assoc]
    · have h3 : ("\" t1\n    JOIN tx_contexts ctx\n      ON  ctx.id = t1.tx_context_id\n      AND ctx.level = (\n            SELECT\n                MAX(ctx.level) AS _level\n            FROM \"" : String) =
          "\" t1\n    JOIN tx_contexts ctx\n      ON  ctx.id = t1.tx_context_id\n      AND ctx.level = (\n            SELECT\n                " ++
          "MAX(ctx.level)" ++ " AS _level\n            FROM \"" := by decide
      rw [h3]
      calc ("MAX(ctx.level)" : String).data
          <:+: (("\nCREATE VIEW \"" ++ t.name ++
                  "_live\" AS (\n    SELECT\n        " ++
                  String.intercalate ", " (table_sql_columns t) ++
                  "\n    FROM \"" ++ t.name ++
                  "\" t1\n    JOIN tx_contexts ctx\n      ON  ctx.id = t1.tx_context_id\n      AND ctx.level = (\n            SELECT\n                ") ++
                "MAX(ctx.level)" ++
                (" AS _level\n            FROM \"" ++ t.name ++
                 "\" custom_table\n            JOIN tx_contexts ctx ON custom_table.tx_context_id = ctx.id\n        )\n);\n")).data :=
            str_infix_mid _ _ _
        _ = _ := by simp only [str_append_assoc]
    · have h4 : ("\n    FROM \"" : String) = "\n    " ++ "FROM \"" := by decide
      have h5 : ("\" t1\n    JOIN tx_contexts ctx\n      ON  ctx.id = t1.tx_context_id\n      AND ctx.level = (\n            SELECT\n                MAX(ctx.level) AS _level\n            FROM \"" : String) =
          "\"" ++ " t1\n    JOIN tx_contexts ctx\n      ON  ctx.id = t1.tx_context_id\n      AND ctx.level = (\n            SELECT\n                MAX(ctx.level) AS _level\n            FROM \"" := by decide
      rw [h4, h5]
      calc ("FROM \"" ++ t.name ++ "\"").data
          <:+: (("\nCREATE VIEW \"" ++ t.name ++
                  "_live\" AS (\n    SELECT\n        " ++
                  String.intercalate ", " (table_sql_columns t) ++
                  "\n    ") ++
                ("FROM \"" ++ t.name ++ "\"") ++
                (" t1\n    JOIN tx_contexts ctx\n      ON  ctx.id = t1.tx_context_id\n      AND ctx.level = (\n            SELECT\n                MAX(ctx.level) AS _level\n            FROM \"" ++ t.name ++
                 "\" custom_table\n            JOIN tx_contexts ctx ON custom_table.tx_context_id = ctx.id\n        )\n);\n")).data :=
            str_infix_mid _ _ _
        _ = _ := by simp only [str_append_assoc]


/-- A concrete non-root table for the C9 witness. -/
def c9_table : Table :=
  { name := "storage.ledger", indices := ["idx_holder"],
    columns := [{ name := "idx_holder", column_type := .address },
                { name := "nat", column_type := .nat }],
    has_uniqueness := true }

/-- **C9 witness**: the theorem's non-root part applied at `c9_table`. -/
theorem c9_create_view_definition_witness :
    ∃ s, create_view_definition c9_table = .ok s ∧
      ("CREATE VIEW \"" ++ c9_table.name ++ "_live\"").data <:+: s.data ∧
      ("MAX(ctx.level)" : String).data <:+: s.data ∧
      ("FROM \"" ++ c9_table.name ++ "\"").data <:+: s.data :=
  c9_create_view_definition.2 c9_table (by decide)

end QP
